import Mathlib

/-!
Verification of the development-mode orchestrator `DevRunner`
(`google/dev/dev_runner.py`).

The Python class is shallowly embedded here:

* the filesystem is a map from path strings to files (content + permission
  bits); directories are implicit (creation attempts are recorded as events);
* every side effect of the orchestrator is recorded in an explicit trace of
  `Event`s, in program order;
* external collaborators that live outside the translated file
  (`pylib.fetch.fetch`, `pylib.spinnaker_runner.Runner.start_all`,
  `configure_util.ConfigureUtil`) are modelled from the specification as
  oracles/parameters, each marked in its doc comment;
* the unbounded polling loops of `start_all` are driven by finite oracle
  lists describing the environment's responses: a run that never sees a
  success response is modelled as `none` (the loop does not return).
-/

namespace DevRunner

/-- Outcome kinds of the `os.makedirs` call: success or an `OSError` of some
kind.  `dev_runner.py` wraps both calls in a bare `except OSError: pass`. -/
inductive OSErrorKind
  | eexist
  | eacces
  | eperm
  | otherKind
deriving DecidableEq, Repr

/-- Result of an `os.makedirs` attempt. -/
inductive MakedirsResult
  | ok
  | err (k : OSErrorKind)
deriving DecidableEq, Repr

/-- A file: its content and its permission bits (as in `os.chmod`). -/
structure File where
  content : String
  perm : Nat
deriving DecidableEq

/-- The filesystem: a map from absolute path to file. -/
abbrev FS := String → Option File

/-- Write (create or overwrite) a file at a path. -/
def fsWrite (fs : FS) (p : String) (f : File) : FS :=
  fun q => if q = p then some f else fs q

/-- Change the permission bits of the file at a path (`os.chmod`). -/
def fsChmod (fs : FS) (p : String) (m : Nat) : FS :=
  fun q => if q = p then (fs p).map (fun f => { f with perm := m }) else fs q

/-- One observable side effect of the orchestrator, in program order. -/
inductive Event
  | mkdir (path : String) (r : MakedirsResult)
  | copyFile (src dst : String)
  | chmod (path : String) (mode : Nat)
  | warnDefault
  | validate (ok : Bool)
  | render
  | createLog (path : String)
  | startTail (path : String)
  | spawn (name : String)
  | spawnDaemon (path : String)
  | checkLog (present : Bool)
  | sleepEv
  | fetch (resp : Option Nat)
  | printReady
  | printAlready (pid : Nat)
  | printStop (pid : Nat)
  | kill (pid : Nat) (sig : Nat)
deriving DecidableEq, Repr

/-- Value of `stat.S_IRUSR`. -/
def S_IRUSR : Nat := 0o400

/-- Value of `stat.S_IWUSR`. -/
def S_IWUSR : Nat := 0o200

/-- Value of `signal.SIGTERM`. -/
def SIGTERM : Nat := 15

/-- Permission bits `shutil.copyfile` gives a destination file it creates
(umask default; the exact value is irrelevant, an `os.chmod` follows). -/
def defaultFilePerm : Nat := 0o644

/-- Path `os.path.join(installation.CONFIG_DIR, 'spinnaker_config.cfg')`. -/
def masterConfigPath (cfgDir : String) : String :=
  cfgDir ++ "/spinnaker_config.cfg"

/-- Path `os.path.join(installation.CONFIG_TEMPLATE_DIR, 'default_spinnaker_config.cfg')`. -/
def templateConfigPath (tmplDir : String) : String :=
  tmplDir ++ "/default_spinnaker_config.cfg"

/-- Path `os.path.join(log_dir, subsystem + '.err')`. -/
def errLogPath (logDir name : String) : String :=
  logDir ++ "/" ++ name ++ ".err"

/-- Path `os.path.join(installation.LOG_DIR, 'deck.log')`. -/
def deckLogPath (logDir : String) : String :=
  logDir ++ "/deck.log"

/-- The command-line fragment `get_deck_pid` greps the process table for. -/
def deckProgram : String :=
  "node ./node_modules/webpack-dev-server/bin/webpack-dev-server.js"

/-- Match the `program` part of the regex in `get_deck_pid` as a prefix of
`cs`.  Each `.` in the program string is a regex wildcard that matches any
character except a newline; every other character of the program string is a
literal. -/
def patMatches : List Char → List Char → Bool
  | [], _ => true
  | _ :: _, [] => false
  | p :: ps, c :: cs =>
    (if p = '.' then c != '\n' else p == c) && patMatches ps cs

/-- Match the regex fragment " .* <program>" against `cs` (the text following
the space after the pid field): some split `cs = a ++ ' ' :: b` must exist,
within the current line (`.*` does not cross a newline), with the program
pattern matching a prefix of `b`. -/
def restHasProgram : List Char → Bool
  | [] => false
  | c :: rest =>
    if c = '\n' then false
    else (c == ' ' && patMatches deckProgram.data rest) || restHasProgram rest

/-- Numeric value of the captured digit run (`int(match.group(1))`). -/
def digitsVal (ds : List Char) : Nat :=
  ds.foldl (fun n c => 10 * n + (c.toNat - 48)) 0

/-- Attempt the regex `^[^ ]+ +([0-9]+) .* <program>` at one anchor position
(`s` is the suffix of the process-table text starting at a line start).
`[^ ]` matches every character except a space, including a newline;
the captured pid is returned.  Backtracking never helps this pattern, so the
greedy decomposition below is exact. -/
def matchAt (s : List Char) : Option Nat :=
  let f1 := s.takeWhile (fun c => c != ' ')
  let r1 := s.dropWhile (fun c => c != ' ')
  let sp := r1.takeWhile (fun c => c == ' ')
  let r2 := r1.dropWhile (fun c => c == ' ')
  let ds := r2.takeWhile Char.isDigit
  let r3 := r2.dropWhile Char.isDigit
  if f1.isEmpty || sp.isEmpty || ds.isEmpty then none
  else
    match r3 with
    | [] => none
    | c :: r4 =>
      if c == ' ' && restHasProgram r4 then some (digitsVal ds) else none

/-- Drop everything up to and including the next newline: the next anchor
position for the multiline `^`. -/
def dropToNextLine : List Char → Option (List Char)
  | [] => none
  | c :: rest => if c = '\n' then some rest else dropToNextLine rest

/-- The search of `re.search` with the multiline flag: try the pattern at each line-start
anchor, left to right, returning the first capture.  Fuel bounds the
recursion; `text.length + 1` is always sufficient. -/
def searchAnchors : Nat → List Char → Option Nat
  | 0, _ => none
  | fuel + 1, s =>
    match matchAt s with
    | some p => some p
    | none =>
      match dropToNextLine s with
      | none => none
      | some s2 => searchAnchors fuel s2

/-- Translation of `DevRunner.get_deck_pid`, as a function of the `ps -fwwwC node` output:
search the process table for the dev-server command line and return the
captured pid, or `None`. -/
def get_deck_pid (psOut : String) : Option Nat :=
  searchAnchors (psOut.length + 1) psOut.data

/-- The notion of line `l` matching the expected command pattern: the regex applied to the
single line in isolation. -/
def lineMatch (l : String) : Option Nat :=
  matchAt l.data

/-- Python truthiness of `get_deck_pid`'s result: `if pid:` is false both for
`None` and for the integer `0`. -/
def pyTruthy : Option Nat → Bool
  | none => false
  | some n => n != 0

/-- Translation of `DevRunner.stop_deck`: look the pid up, and if truthy print a report and
send `SIGTERM`. -/
def stop_deck (psOut : String) : List Event :=
  let pid := get_deck_pid psOut
  if pyTruthy pid then
    [Event.printStop (pid.getD 0), Event.kill (pid.getD 0) SIGTERM]
  else []

/-- Result of `DevRunner.start_deck`: either the pid of an already-running
deck, or the start script spawned as a daemon. -/
inductive StartDeckResult
  | existing (pid : Nat)
  | spawned (path : String)
deriving DecidableEq

/-- Path `os.path.join(SUBSYSTEM_ROOT_DIR, 'deck/start_dev.sh')`. -/
def deckStartScript (root : String) : String :=
  root ++ "/deck/start_dev.sh"

/-- Translation of `DevRunner.start_deck`: if the pid lookup is truthy, report and return the
existing pid; otherwise run the deck start script as a daemon. -/
def start_deck (root psOut : String) : StartDeckResult × List Event :=
  let pid := get_deck_pid psOut
  if pyTruthy pid then
    (StartDeckResult.existing (pid.getD 0), [Event.printAlready (pid.getD 0)])
  else
    (StartDeckResult.spawned (deckStartScript root),
     [Event.spawnDaemon (deckStartScript root)])

/-- Outcome of a (possibly fatal) orchestration step: the filesystem after it,
its event trace, and whether the process survived it (`validate_or_die` and an
uncaught exception terminate the process). -/
structure RunOutcome where
  fsOut : FS
  events : List Event
  ok : Bool

/-- The seeding step of `DevRunner.reconfigure_subsystems` (the
`if not os.path.exists(...)` block): if the master config file is missing,
copy the template over, chmod it to owner read/write, and print the one-time
warning.  A missing template makes `shutil.copyfile` raise an uncaught
`IOError` (`ok := false`). -/
def seedDefaultIfMissing (cfgDir tmplDir : String) (fs : FS) : RunOutcome :=
  let master := masterConfigPath cfgDir
  if (fs master).isSome then ⟨fs, [], true⟩
  else
    match fs (templateConfigPath tmplDir) with
    | none => ⟨fs, [], false⟩
    | some t =>
      ⟨fsChmod (fsWrite fs master ⟨t.content, defaultFilePerm⟩) master
          (S_IRUSR ||| S_IWUSR),
       [Event.copyFile (templateConfigPath tmplDir) master,
        Event.chmod master (S_IRUSR ||| S_IWUSR),
        Event.warnDefault],
       true⟩

/-- Translation of `DevRunner.reconfigure_subsystems`.  Here `mk` is the outcome of the
`os.makedirs(CONFIG_DIR)` attempt, absorbed by `except OSError: pass`.
`validateOk` is the oracle for `ConfigureUtil.validate_or_die`, and `render`
stands for `load_bindings` plus `update_all_config_files`.  Both live in
`pylib.configure_util`; modelled from the spec: validation either passes or
terminates the process, and rendering rewrites the per-subsystem
configuration files from the validated bindings. -/
def reconfigure_subsystems (cfgDir tmplDir : String) (mk : MakedirsResult)
    (validateOk : Bool) (render : FS → FS) (fs : FS) : RunOutcome :=
  let seed := seedDefaultIfMissing cfgDir tmplDir fs
  let rest : RunOutcome :=
    if seed.ok then
      if validateOk then
        ⟨render seed.fsOut, seed.events ++ [Event.validate true, Event.render],
         true⟩
      else ⟨seed.fsOut, seed.events ++ [Event.validate false], false⟩
    else seed
  ⟨rest.fsOut, Event.mkdir cfgDir mk :: rest.events, rest.ok⟩

/-- Effect of `open(path, 'w').close()`: truncate the file, creating it (with umask
default permissions) if absent; an existing file keeps its permission bits. -/
def touchTruncate (fs : FS) (p : String) : FS :=
  fsWrite fs p ⟨"", match fs p with
                   | some f => f.perm
                   | none => defaultFilePerm⟩

/-- The `for subsystem in ...` loop body of `DevRunner.tail_error_logs`:
pre-create each error log, then attach a tail to it. -/
def tailLoop (logDir : String) (fs : FS) : List String → FS × List Event
  | [] => (fs, [])
  | s :: rest =>
    let p := errLogPath logDir s
    let r := tailLoop logDir (touchTruncate fs p) rest
    (r.1, Event.createLog p :: Event.startTail p :: r.2)

/-- Translation of `DevRunner.tail_error_logs`: try to create the log directory (any
`OSError` is absorbed), then pre-create and tail every subsystem error log.
`names` is the oracle for `get_all_subsystem_names()` (external,
`pylib.spinnaker_runner`). -/
def tail_error_logs (logDir : String) (names : List String)
    (mk : MakedirsResult) (fs : FS) : FS × List Event :=
  let r := tailLoop logDir fs names
  (r.1, Event.mkdir logDir mk :: r.2)

/-- Modelled from the spec: `super(DevRunner, self).start_all` - the parent
runner (`pylib/spinnaker_runner.py`, not part of the translated file) spawns
each subsystem's start script as a detached daemon, one spawn per subsystem,
in sequence, with no configuration or log-file side effects of its own. -/
def superStartAllEvents (names : List String) : List Event :=
  names.map Event.spawn

/-- The `while not os.path.exists(deck_log_path)` wait in `start_all`:
`k` is the oracle for how many existence checks fail before the deck log
appears; each failed check is followed by the fixed 100ms sleep. -/
def waitForDeckLog : Nat → List Event
  | 0 => [Event.checkLog true]
  | k + 1 => Event.checkLog false :: Event.sleepEv :: waitForDeckLog k

/-- The readiness-polling `while True` loop of `start_all`.  `resps` is the
oracle for the successive results of `fetch` (modelled from the spec:
`pylib.fetch.fetch` returns the HTTP status of a GET on the deck base URL,
`none` standing for a connection failure rather than a raised error).  The
loop breaks on the first `200`; on every other result it sleeps the fixed
interval and retries.  If the oracle list is exhausted without a `200` the
loop has not returned (`none`). -/
def pollDeckLoop : List (Option Nat) → Option (List Event)
  | [] => none
  | r :: rest =>
    if r = some 200 then some [Event.fetch r]
    else (pollDeckLoop rest).map (fun tr => Event.fetch r :: Event.sleepEv :: tr)

/-- Translation of `DevRunner.start_all`, as the event trace of one run, up to the point
where the terminal idle loop (`while True: time.sleep(3600)`) is entered.
`usingDeprecated` is the oracle for `self.using_deprecated_config`
(external, `pylib.spinnaker_runner`).  A run killed by `validate_or_die`
(or by a failed seeding copy) yields the trace up to its death; a run whose
readiness loop never sees a `200` yields `none`. -/
def start_all (usingDeprecated : Bool) (cfgDir tmplDir logDir : String)
    (mk1 mk2 : MakedirsResult) (validateOk : Bool) (render : FS → FS)
    (names : List String) (k : Nat) (resps : List (Option Nat)) (fs : FS) :
    Option (List Event) :=
  let c :=
    if usingDeprecated then
      reconfigure_subsystems cfgDir tmplDir mk1 validateOk render fs
    else ⟨fs, [], true⟩
  if c.ok then
    match pollDeckLoop resps with
    | none => none
    | some evP =>
      some (c.events ++ (tail_error_logs logDir names mk2 c.fsOut).2
        ++ superStartAllEvents names ++ waitForDeckLog k
        ++ Event.startTail (deckLogPath logDir) :: evP ++ [Event.printReady])
  else some c.events

/-- Translation of `DevRunner.program_to_subsystem`. -/
def program_to_subsystem (program : String) : String :=
  program

/-- Translation of `DevRunner.subsystem_to_program`. -/
def subsystem_to_program (subsystem : String) : String :=
  subsystem

/-- The diagnostic the `__main__` guard writes to standard error. -/
def preconditionDiagnostic : String :=
  "This script needs to be run from the root of your build directory.\n"

/-- Outcome of the `__main__` entry point: what was written to standard
error, the exit code passed to `sys.exit` (if any), and the side-effect
events performed. -/
structure MainOutcome where
  stderrText : String
  exitCode : Option Int
  events : List Event

/-- The `if __name__ == '__main__'` block: check that the working directory
contains a `deck` subdirectory; if not, write the diagnostic to standard
error and exit with code `-1`, performing nothing else.  `runnerEvents`
stands for the events of `DevRunner.main()` (external entry,
`pylib.spinnaker_runner`), reached only when the check passes. -/
def mainEntry (deckDirPresent : Bool) (runnerEvents : List Event) :
    MainOutcome :=
  if deckDirPresent then ⟨"", none, runnerEvents⟩
  else ⟨preconditionDiagnostic, some (-1), []⟩

/-- Fetch events in a trace. -/
def isFetchEv : Event → Bool
  | Event.fetch _ => true
  | _ => false

/-- Sleep events in a trace. -/
def isSleepEv : Event → Bool
  | Event.sleepEv => true
  | _ => false

/-- Log-creation events in a trace. -/
def isCreateLogEv : Event → Bool
  | Event.createLog _ => true
  | _ => false

/-- Configuration-validation or rendering events (the work of
`ConfigureUtil` inside `reconfigure_subsystems`). -/
def isConfigEvent (e : Event) : Prop :=
  (∃ b, e = Event.validate b) ∨ e = Event.render

/-- Daemon-spawn events (a subsystem or the deck start script). -/
def isSpawnEvent (e : Event) : Prop :=
  (∃ s, e = Event.spawn s) ∨ (∃ p, e = Event.spawnDaemon p)

/-- HTTP readiness-poll events. -/
def isFetchEvent (e : Event) : Prop :=
  ∃ r, e = Event.fetch r

/-- Every `P`-event of the trace occurs strictly before every `Q`-event. -/
def eventBefore (P Q : Event → Prop) (tr : List Event) : Prop :=
  ∀ (i j : Nat) e₁ e₂,
    tr[i]? = some e₁ → P e₁ → tr[j]? = some e₂ → Q e₂ → i < j

/-- Every `Q`-event of the trace is preceded by some `R`-event. -/
def eventCovered (R Q : Event → Prop) (tr : List Event) : Prop :=
  ∀ (j : Nat) e, tr[j]? = some e → Q e →
    ∃ (i : Nat) (e₂ : Event), i < j ∧ tr[i]? = some e₂ ∧ R e₂

/-- A filesystem that already holds an (edited) master configuration file. -/
def fsWithMaster : FS := fun p =>
  if p = "/home/.spinnaker/spinnaker_config.cfg" then some ⟨"edited", 0o600⟩
  else none

/-- A filesystem holding only the template: no master configuration file. -/
def fsScratch : FS := fun p =>
  if p = "/tpl/default_spinnaker_config.cfg" then some ⟨"template-content", 0o644⟩
  else none

/-- A process-table snapshot whose dev-server entry has pid 0: discovery
captures the pid 0, which Python truthiness then treats as "not running". -/
def psZeroLine : String :=
  "x 0 1 node ./node_modules/webpack-dev-server/bin/webpack-dev-server.js"

/-- A process-table snapshot with a dev-server entry at pid 42. -/
def psFortyTwo : String :=
  "root 42 1 0 node ./node_modules/webpack-dev-server/bin/webpack-dev-server.js"

/-- Join lines with newlines: the inverse of splitting a process-table text
into its lines. -/
def joinLines : List String → String
  | [] => ""
  | [l] => l
  | l :: rest => l ++ "\n" ++ joinLines rest

/-- The per-subsystem events of the `tail_error_logs` loop: one log
pre-creation followed by one tail attachment per subsystem, in order. -/
def tailEvents (logDir : String) (names : List String) : List Event :=
  names.flatMap fun s =>
    [Event.createLog (errLogPath logDir s), Event.startTail (errLogPath logDir s)]

/-- The event trace of one concrete `start_all` run: one subsystem, one
failed deck-log existence check, an immediately ready front-end. -/
def exTrace : List Event :=
  [Event.mkdir "/L" MakedirsResult.ok, Event.createLog "/L/api.err",
   Event.startTail "/L/api.err", Event.spawn "api", Event.checkLog false,
   Event.sleepEv, Event.checkLog true, Event.startTail "/L/deck.log",
   Event.fetch (some 200), Event.printReady]

-- FURTHER-DEFS-INSERTION-POINT

/-- The event trace the readiness gate produces when the first `N` fetches
are not ready and fetch `N+1` returns 200. -/
def gateTrace (nons : List (Option Nat)) : List Event :=
  (nons.flatMap fun r => [Event.fetch r, Event.sleepEv]) ++ [Event.fetch (some 200)]

theorem gateTrace_cons (r : Option Nat) (rest : List (Option Nat)) :
    gateTrace (r :: rest) = Event.fetch r :: Event.sleepEv :: gateTrace rest := by
  simp [gateTrace, List.flatMap_cons]

theorem pollDeckLoop_eq (nons : List (Option Nat))
    (h : ∀ r ∈ nons, r ≠ some 200) :
    pollDeckLoop (nons ++ [some 200]) = some (gateTrace nons) := by
  induction nons with
  | nil => simp [pollDeckLoop, gateTrace]
  | cons r rest ih =>
    have hr : r ≠ some 200 := h r (by simp)
    have ih2 := ih (fun x hx => h x (by simp [hx]))
    simp [pollDeckLoop, hr, ih2, gateTrace_cons]

theorem gateTrace_countFetch (nons : List (Option Nat)) :
    (gateTrace nons).countP isFetchEv = nons.length + 1 := by
  induction nons with
  | nil => simp [gateTrace, isFetchEv]
  | cons r rest ih => simp [gateTrace_cons, List.countP_cons, isFetchEv, ih]

theorem gateTrace_countSleep (nons : List (Option Nat)) :
    (gateTrace nons).countP isSleepEv = nons.length := by
  induction nons with
  | nil => simp [gateTrace, isSleepEv]
  | cons r rest ih => simp [gateTrace_cons, List.countP_cons, isSleepEv, ih]

/-- C1: if the front-end returns a non-200 status (or the fetch fails) for
the first `N` polling attempts and 200 on attempt `N+1`, the readiness gate
performs exactly `N+1` fetch attempts, sleeps the fixed interval exactly once
after each of the `N` non-200 results (and never after the 200), and returns
immediately after the first 200; every non-200 status or connection failure
leads to a retry, never to an error. -/
theorem readiness_gate_correct (nons : List (Option Nat))
    (h : ∀ r ∈ nons, r ≠ some 200) :
    pollDeckLoop (nons ++ [some 200]) = some (gateTrace nons)
    ∧ (gateTrace nons).countP isFetchEv = nons.length + 1
    ∧ (gateTrace nons).countP isSleepEv = nons.length := by
  exact ⟨pollDeckLoop_eq nons h, gateTrace_countFetch nons, gateTrace_countSleep nons⟩

/-- Witness for `readiness_gate_correct`: a connection failure and a 404,
then a 200: three fetches, two sleeps. -/
theorem readiness_gate_correct_witness :
    (∀ r ∈ ([none, some 404] : List (Option Nat)), r ≠ some 200)
    ∧ (pollDeckLoop ([none, some 404] ++ [some 200]) = some (gateTrace [none, some 404])
       ∧ (gateTrace [none, some 404]).countP isFetchEv = 2 + 1
       ∧ (gateTrace [none, some 404]).countP isSleepEv = 2) :=
  ⟨by decide, readiness_gate_correct [none, some 404] (by decide)⟩

/-- C10: `program_to_subsystem` and `subsystem_to_program` are both the
identity on strings, hence mutual inverses. -/
theorem name_maps_mutual_inverses (s : String) :
    program_to_subsystem (subsystem_to_program s) = s
    ∧ subsystem_to_program (program_to_subsystem s) = s :=
  ⟨rfl, rfl⟩

/-- C5: invoked from a working directory without a `deck` subdirectory, the
entry point writes a diagnostic to standard error, exits with the non-zero
code `-1`, and performs no filesystem writes and no orchestration events. -/
theorem main_precondition_enforced (runnerEvents : List Event) :
    (mainEntry false runnerEvents).exitCode = some (-1)
    ∧ ((-1 : Int) ≠ 0)
    ∧ (mainEntry false runnerEvents).stderrText = preconditionDiagnostic
    ∧ preconditionDiagnostic ≠ ""
    ∧ (mainEntry false runnerEvents).events = [] :=
  ⟨rfl, by decide, rfl, by decide, rfl⟩

theorem tailLoop_countCreate (logDir : String) (names : List String) :
    ∀ fs : FS, ((tailLoop logDir fs names).2).countP isCreateLogEv = names.length := by
  induction names with
  | nil => intro fs; simp [tailLoop]
  | cons s rest ih =>
    intro fs
    simp [tailLoop, List.countP_cons, isCreateLogEv, ih]

/-- C9: any `OSError` from the directory-creation call is absorbed in both
`tail_error_logs` and `reconfigure_subsystems`: apart from the recorded
outcome of the attempt itself, the resulting filesystem, the remaining
events (the subsequent file operations all still happen - one log creation
per subsystem) and the survive/die outcome are identical to the success
case; no directory-creation failure is fatal by itself. -/
theorem makedirs_failure_absorbed (logDir cfgDir tmplDir : String)
    (names : List String) (fs g : FS) (v : Bool) (render : FS → FS)
    (k : OSErrorKind) :
    tail_error_logs logDir names (MakedirsResult.err k) fs
      = ((tail_error_logs logDir names MakedirsResult.ok fs).1,
         Event.mkdir logDir (MakedirsResult.err k)
           :: (tail_error_logs logDir names MakedirsResult.ok fs).2.tail)
    ∧ reconfigure_subsystems cfgDir tmplDir (MakedirsResult.err k) v render g
      = ⟨(reconfigure_subsystems cfgDir tmplDir MakedirsResult.ok v render g).fsOut,
         Event.mkdir cfgDir (MakedirsResult.err k)
           :: (reconfigure_subsystems cfgDir tmplDir MakedirsResult.ok v render g).events.tail,
         (reconfigure_subsystems cfgDir tmplDir MakedirsResult.ok v render g).ok⟩
    ∧ ((tail_error_logs logDir names (MakedirsResult.err k) fs).2).countP isCreateLogEv
      = names.length := by
  refine ⟨rfl, rfl, ?_⟩
  simpa [tail_error_logs, List.countP_cons, isCreateLogEv] using
    tailLoop_countCreate logDir names fs

theorem seed_skip (cfgDir tmplDir : String) (fs : FS)
    (h : (fs (masterConfigPath cfgDir)).isSome) :
    seedDefaultIfMissing cfgDir tmplDir fs = ⟨fs, [], true⟩ := by
  simp [seedDefaultIfMissing, h]

theorem seed_scratch (cfgDir tmplDir : String) (fs : FS) (t : File)
    (habs : fs (masterConfigPath cfgDir) = none)
    (htmpl : fs (templateConfigPath tmplDir) = some t) :
    seedDefaultIfMissing cfgDir tmplDir fs
      = ⟨fsChmod (fsWrite fs (masterConfigPath cfgDir) ⟨t.content, defaultFilePerm⟩)
            (masterConfigPath cfgDir) (S_IRUSR ||| S_IWUSR),
         [Event.copyFile (templateConfigPath tmplDir) (masterConfigPath cfgDir),
          Event.chmod (masterConfigPath cfgDir) (S_IRUSR ||| S_IWUSR),
          Event.warnDefault], true⟩ := by
  simp [seedDefaultIfMissing, habs, htmpl]

theorem seeded_master_val (fs : FS) (m c : String) (pm : Nat) :
    fsChmod (fsWrite fs m ⟨c, defaultFilePerm⟩) m pm m = some ⟨c, pm⟩ := by
  simp [fsChmod, fsWrite]

theorem seed_master_isSome (cfgDir tmplDir : String) (fs : FS)
    (hok : (seedDefaultIfMissing cfgDir tmplDir fs).ok = true) :
    ((seedDefaultIfMissing cfgDir tmplDir fs).fsOut (masterConfigPath cfgDir)).isSome := by
  by_cases h : (fs (masterConfigPath cfgDir)).isSome
  · rw [seed_skip cfgDir tmplDir fs h]; exact h
  · have habs : fs (masterConfigPath cfgDir) = none :=
      Option.not_isSome_iff_eq_none.mp h
    cases ht : fs (templateConfigPath tmplDir) with
    | none => simp [seedDefaultIfMissing, habs, ht] at hok
    | some t =>
      rw [seed_scratch cfgDir tmplDir fs t habs ht]
      simp [seeded_master_val]

theorem reconfigure_fsOut (cfgDir tmplDir : String) (mk : MakedirsResult)
    (v : Bool) (render : FS → FS) (fs : FS) :
    (reconfigure_subsystems cfgDir tmplDir mk v render fs).fsOut
      = if (seedDefaultIfMissing cfgDir tmplDir fs).ok && v
        then render (seedDefaultIfMissing cfgDir tmplDir fs).fsOut
        else (seedDefaultIfMissing cfgDir tmplDir fs).fsOut := by
  cases hok : (seedDefaultIfMissing cfgDir tmplDir fs).ok <;> cases v <;>
    simp [reconfigure_subsystems, hok]

theorem reconfigure_events (cfgDir tmplDir : String) (mk : MakedirsResult)
    (v : Bool) (render : FS → FS) (fs : FS) :
    (reconfigure_subsystems cfgDir tmplDir mk v render fs).events
      = Event.mkdir cfgDir mk ::
          ((seedDefaultIfMissing cfgDir tmplDir fs).events
            ++ if (seedDefaultIfMissing cfgDir tmplDir fs).ok then
                 (if v then [Event.validate true, Event.render]
                  else [Event.validate false])
               else []) := by
  cases hok : (seedDefaultIfMissing cfgDir tmplDir fs).ok <;> cases v <;>
    simp [reconfigure_subsystems, hok]

theorem reconfigure_master_untouched (cfgDir tmplDir : String)
    (mk : MakedirsResult) (v : Bool) (render : FS → FS) (fs : FS)
    (hr : ∀ g : FS, render g (masterConfigPath cfgDir) = g (masterConfigPath cfgDir))
    (h : (fs (masterConfigPath cfgDir)).isSome) :
    (reconfigure_subsystems cfgDir tmplDir mk v render fs).fsOut (masterConfigPath cfgDir)
      = fs (masterConfigPath cfgDir)
    ∧ (∀ src, Event.copyFile src (masterConfigPath cfgDir)
        ∉ (reconfigure_subsystems cfgDir tmplDir mk v render fs).events)
    ∧ (∀ m, Event.chmod (masterConfigPath cfgDir) m
        ∉ (reconfigure_subsystems cfgDir tmplDir mk v render fs).events) := by
  have hs := seed_skip cfgDir tmplDir fs h
  refine ⟨?_, ?_, ?_⟩
  · rw [reconfigure_fsOut, hs]
    cases v <;> simp [hr fs]
  · intro src
    rw [reconfigure_events, hs]
    cases v <;> simp
  · intro m
    rw [reconfigure_events, hs]
    cases v <;> simp

theorem reconfigure_master_isSome (cfgDir tmplDir : String)
    (mk : MakedirsResult) (v : Bool) (render : FS → FS) (fs : FS)
    (hr : ∀ g : FS, render g (masterConfigPath cfgDir) = g (masterConfigPath cfgDir))
    (hok : (seedDefaultIfMissing cfgDir tmplDir fs).ok = true) :
    ((reconfigure_subsystems cfgDir tmplDir mk v render fs).fsOut
        (masterConfigPath cfgDir)).isSome := by
  rw [reconfigure_fsOut]
  have hm := seed_master_isSome cfgDir tmplDir fs hok
  by_cases hb : ((seedDefaultIfMissing cfgDir tmplDir fs).ok && v) = true
  · rw [if_pos hb, hr]; exact hm
  · rw [if_neg hb]; exact hm

/-- C2: configuration seeding is idempotent.  When the master configuration
file already exists, `reconfigure_subsystems` performs no copy and no chmod
on it and leaves its content and permission bits unchanged; and after any
invocation whose seeding step completed, a second invocation again performs
no copy and no chmod on the file and leaves it exactly as the first left it.
(The external renderer only rewrites per-subsystem configuration files, so
it is assumed not to touch the master path.) -/
theorem seeding_idempotent (cfgDir tmplDir : String) (mk1 mk2 : MakedirsResult)
    (v1 v2 : Bool) (render1 render2 : FS → FS) (fs : FS)
    (hr1 : ∀ g : FS, render1 g (masterConfigPath cfgDir) = g (masterConfigPath cfgDir))
    (hr2 : ∀ g : FS, render2 g (masterConfigPath cfgDir) = g (masterConfigPath cfgDir)) :
    ((fs (masterConfigPath cfgDir)).isSome →
      (reconfigure_subsystems cfgDir tmplDir mk1 v1 render1 fs).fsOut (masterConfigPath cfgDir)
        = fs (masterConfigPath cfgDir)
      ∧ (∀ src, Event.copyFile src (masterConfigPath cfgDir)
          ∉ (reconfigure_subsystems cfgDir tmplDir mk1 v1 render1 fs).events)
      ∧ (∀ m, Event.chmod (masterConfigPath cfgDir) m
          ∉ (reconfigure_subsystems cfgDir tmplDir mk1 v1 render1 fs).events))
    ∧ ((seedDefaultIfMissing cfgDir tmplDir fs).ok = true →
      (reconfigure_subsystems cfgDir tmplDir mk2 v2 render2
          (reconfigure_subsystems cfgDir tmplDir mk1 v1 render1 fs).fsOut).fsOut
          (masterConfigPath cfgDir)
        = (reconfigure_subsystems cfgDir tmplDir mk1 v1 render1 fs).fsOut
            (masterConfigPath cfgDir)
      ∧ (∀ src, Event.copyFile src (masterConfigPath cfgDir)
          ∉ (reconfigure_subsystems cfgDir tmplDir mk2 v2 render2
              (reconfigure_subsystems cfgDir tmplDir mk1 v1 render1 fs).fsOut).events)
      ∧ (∀ m, Event.chmod (masterConfigPath cfgDir) m
          ∉ (reconfigure_subsystems cfgDir tmplDir mk2 v2 render2
              (reconfigure_subsystems cfgDir tmplDir mk1 v1 render1 fs).fsOut).events)) := by
  constructor
  · intro h
    exact reconfigure_master_untouched cfgDir tmplDir mk1 v1 render1 fs hr1 h
  · intro hok
    exact reconfigure_master_untouched cfgDir tmplDir mk2 v2 render2 _ hr2
      (reconfigure_master_isSome cfgDir tmplDir mk1 v1 render1 fs hr1 hok)

/-- Witness for `seeding_idempotent`: a filesystem already holding an edited
master configuration file. -/
theorem seeding_idempotent_witness :
    (fsWithMaster (masterConfigPath "/home/.spinnaker")).isSome = true
    ∧ (reconfigure_subsystems "/home/.spinnaker" "/tpl" MakedirsResult.ok true id
          fsWithMaster).fsOut (masterConfigPath "/home/.spinnaker")
        = fsWithMaster (masterConfigPath "/home/.spinnaker") :=
  ⟨by decide,
   ((seeding_idempotent "/home/.spinnaker" "/tpl" MakedirsResult.ok MakedirsResult.ok
      true true id id fsWithMaster (fun g => rfl) (fun g => rfl)).1 (by decide)).1⟩

/-- C3: seeding from scratch.  If the master configuration file is absent and
the template present, the seeding step creates the master file with content
equal to the template content and permission bits exactly owner read plus
owner write (0o600), and the full `reconfigure_subsystems` leaves it so. -/
theorem seeding_from_scratch (cfgDir tmplDir : String) (mk : MakedirsResult)
    (v : Bool) (render : FS → FS) (fs : FS) (t : File)
    (habs : fs (masterConfigPath cfgDir) = none)
    (htmpl : fs (templateConfigPath tmplDir) = some t)
    (hr : ∀ g : FS, render g (masterConfigPath cfgDir) = g (masterConfigPath cfgDir)) :
    (seedDefaultIfMissing cfgDir tmplDir fs).fsOut (masterConfigPath cfgDir)
      = some ⟨t.content, S_IRUSR ||| S_IWUSR⟩
    ∧ S_IRUSR ||| S_IWUSR = 0o600
    ∧ (reconfigure_subsystems cfgDir tmplDir mk v render fs).fsOut (masterConfigPath cfgDir)
      = some ⟨t.content, S_IRUSR ||| S_IWUSR⟩ := by
  have hseed : (seedDefaultIfMissing cfgDir tmplDir fs).fsOut (masterConfigPath cfgDir)
      = some ⟨t.content, S_IRUSR ||| S_IWUSR⟩ := by
    rw [seed_scratch cfgDir tmplDir fs t habs htmpl]
    exact seeded_master_val fs (masterConfigPath cfgDir) t.content (S_IRUSR ||| S_IWUSR)
  refine ⟨hseed, by decide, ?_⟩
  rw [reconfigure_fsOut]
  by_cases hb : ((seedDefaultIfMissing cfgDir tmplDir fs).ok && v) = true
  · rw [if_pos hb, hr]; exact hseed
  · rw [if_neg hb]; exact hseed

/-- Witness for `seeding_from_scratch`: an empty configuration directory and
a template file; the seeded master file is the template content with 0o600. -/
theorem seeding_from_scratch_witness :
    fsScratch (masterConfigPath "/cfg") = none
    ∧ fsScratch (templateConfigPath "/tpl") = some ⟨"template-content", 0o644⟩
    ∧ (seedDefaultIfMissing "/cfg" "/tpl" fsScratch).fsOut (masterConfigPath "/cfg")
        = some ⟨"template-content", S_IRUSR ||| S_IWUSR⟩ :=
  ⟨by decide, by decide,
   (seeding_from_scratch "/cfg" "/tpl" MakedirsResult.ok true id fsScratch
      ⟨"template-content", 0o644⟩ (by decide) (by decide) (fun g => rfl)).1⟩

/-- C7 counterexample: on a process table whose matching entry has pid 0,
discovery finds the pid (`some 0`) yet `stop_deck` sends no termination
signal and prints no report - `if pid:` is false for the integer 0 - so
"sends a termination signal iff discovery finds one" fails as stated. -/
theorem stop_deck_pid_zero :
    get_deck_pid psZeroLine = some 0 ∧ stop_deck psZeroLine = [] := by
  constructor
  · decide
  · decide

/-- C7 (amended): `stop_deck` sends `SIGTERM` to the discovered pid, and
prints a report naming it, exactly when discovery finds a nonzero pid
(Python truthiness treats a discovered pid 0 like a miss); a discovery miss
causes no signal and no error. -/
theorem stop_deck_spec (psOut : String) :
    (∀ p, get_deck_pid psOut = some p → p ≠ 0 →
      stop_deck psOut = [Event.printStop p, Event.kill p SIGTERM])
    ∧ (get_deck_pid psOut = none ∨ get_deck_pid psOut = some 0 →
      stop_deck psOut = []) := by
  constructor
  · intro p hp hp0
    simp [stop_deck, hp, pyTruthy, hp0]
  · rintro (h | h) <;> simp [stop_deck, h, pyTruthy]

/-- Witness for `stop_deck_spec`: a running dev server at pid 42 is signalled. -/
theorem stop_deck_spec_witness :
    (get_deck_pid psFortyTwo = some 42 ∧ (42 : Nat) ≠ 0)
    ∧ stop_deck psFortyTwo = [Event.printStop 42, Event.kill 42 SIGTERM] :=
  ⟨⟨by decide, by decide⟩, (stop_deck_spec psFortyTwo).1 42 (by decide) (by decide)⟩

/-- C8 counterexample: on a process table whose matching entry has pid 0,
discovery finds a running front-end (`some 0`) yet `start_deck` spawns a new
daemon anyway, so "returns the existing pid without spawning whenever
discovery finds one" fails as stated. -/
theorem start_deck_pid_zero :
    get_deck_pid psZeroLine = some 0
    ∧ start_deck "/root" psZeroLine
        = (StartDeckResult.spawned (deckStartScript "/root"),
           [Event.spawnDaemon (deckStartScript "/root")]) := by
  constructor
  · decide
  · decide

/-- C8 (amended): `start_deck` returns the already-running pid, spawning
nothing, exactly when discovery finds a nonzero pid (Python truthiness
treats a discovered pid 0 like a miss); when discovery reports absent or
pid 0 it spawns the deck start script as a detached daemon. -/
theorem start_deck_spec (root psOut : String) :
    (∀ p, get_deck_pid psOut = some p → p ≠ 0 →
      start_deck root psOut = (StartDeckResult.existing p, [Event.printAlready p]))
    ∧ (get_deck_pid psOut = none ∨ get_deck_pid psOut = some 0 →
      start_deck root psOut
        = (StartDeckResult.spawned (deckStartScript root),
           [Event.spawnDaemon (deckStartScript root)])) := by
  constructor
  · intro p hp hp0
    simp [start_deck, hp, pyTruthy, hp0]
  · rintro (h | h) <;> simp [start_deck, h, pyTruthy]

/-- Witness for `start_deck_spec`: with the dev server already at pid 42,
no new daemon is spawned and the existing pid is returned. -/
theorem start_deck_spec_witness :
    (get_deck_pid psFortyTwo = some 42 ∧ (42 : Nat) ≠ 0)
    ∧ start_deck "/root" psFortyTwo
        = (StartDeckResult.existing 42, [Event.printAlready 42]) :=
  ⟨⟨by decide, by decide⟩, (start_deck_spec "/root" psFortyTwo).1 42 (by decide) (by decide)⟩

theorem takeWhile_append_of_neg {α : Type} (p : α → Bool) (l m : List α)
    (h : ∃ a ∈ l, p a = false) :
    (l ++ m).takeWhile p = l.takeWhile p
    ∧ (l ++ m).dropWhile p = l.dropWhile p ++ m := by
  induction l with
  | nil => rcases h with ⟨a, ha, _⟩; cases ha
  | cons x xs ih =>
    cases hx : p x with
    | false => simp [List.takeWhile_cons, List.dropWhile_cons, hx]
    | true =>
      have h2 : ∃ a ∈ xs, p a = false := by
        rcases h with ⟨a, ha, hpa⟩
        rcases List.mem_cons.mp ha with rfl | hmem
        · rw [hx] at hpa; cases hpa
        · exact ⟨a, hmem, hpa⟩
      rcases ih h2 with ⟨h3, h4⟩
      simp [List.takeWhile_cons, List.dropWhile_cons, hx, h3, h4]

theorem takeWhile_append_nl (p : Char → Bool) (hp : p '\n' = false)
    (l r : List Char) :
    (l ++ '\n' :: r).takeWhile p = l.takeWhile p
    ∧ (l ++ '\n' :: r).dropWhile p = l.dropWhile p ++ '\n' :: r := by
  induction l with
  | nil => simp [List.takeWhile_cons, List.dropWhile_cons, hp]
  | cons x xs ih =>
    cases hx : p x <;>
      simp [List.takeWhile_cons, List.dropWhile_cons, hx, ih.1, ih.2]

theorem patMatches_nl (pat : List Char) (hp : '\n' ∉ pat) (m r : List Char) :
    patMatches pat (m ++ '\n' :: r) = patMatches pat m := by
  induction pat generalizing m with
  | nil => simp [patMatches]
  | cons p ps ih =>
    have hp1 : p ≠ '\n' := fun e => hp (by simp [e])
    have hp2 : '\n' ∉ ps := fun hm => hp (by simp [hm])
    cases m with
    | nil =>
      by_cases hpd : p = '.'
      · simp [patMatches, hpd]
      · simp [patMatches, hpd, hp1]
    | cons c m2 =>
      simp [patMatches, ih hp2 m2]

theorem restHasProgram_nl (m r : List Char) (hm : '\n' ∉ m) :
    restHasProgram (m ++ '\n' :: r) = restHasProgram m := by
  have hdp : '\n' ∉ deckProgram.data := by decide
  induction m with
  | nil => simp [restHasProgram]
  | cons c m2 ih =>
    have hc : c ≠ '\n' := fun e => hm (by simp [e])
    have hm2 : '\n' ∉ m2 := fun h2 => hm (by simp [h2])
    simp [restHasProgram, hc, patMatches_nl deckProgram.data hdp m2 r, ih hm2]

theorem mem_of_mem_dropWhile {α : Type} (p : α → Bool) (l : List α) {a : α}
    (h : a ∈ l.dropWhile p) : a ∈ l :=
  (List.dropWhile_sublist p).subset h

theorem matchAt_line (l r : List Char) (hnl : '\n' ∉ l) (hsp : ' ' ∈ l) :
    matchAt (l ++ '\n' :: r) = matchAt l := by
  have h1 := takeWhile_append_of_neg (fun c => c != ' ') l ('\n' :: r)
    ⟨' ', hsp, by simp⟩
  have h2 := takeWhile_append_nl (fun c => c == ' ') (by decide)
    (l.dropWhile (fun c => c != ' ')) r
  have h3 := takeWhile_append_nl Char.isDigit (by decide)
    ((l.dropWhile (fun c => c != ' ')).dropWhile (fun c => c == ' ')) r
  have hd3 : '\n' ∉ ((l.dropWhile (fun c => c != ' ')).dropWhile
      (fun c => c == ' ')).dropWhile Char.isDigit := by
    intro hmem
    exact hnl (mem_of_mem_dropWhile _ _ (mem_of_mem_dropWhile _ _
      (mem_of_mem_dropWhile _ _ hmem)))
  simp only [matchAt, h1.1, h1.2, h2.1, h2.2, h3.1, h3.2]
  cases hc : ((l.dropWhile (fun c => c != ' ')).dropWhile
      (fun c => c == ' ')).dropWhile Char.isDigit with
  | nil => rfl
  | cons c t =>
    have ht : '\n' ∉ t := by
      intro hmem; rw [hc] at hd3; exact hd3 (by simp [hmem])
    simp [restHasProgram_nl t r ht]

theorem dropToNextLine_none (l : List Char) (h : '\n' ∉ l) :
    dropToNextLine l = none := by
  induction l with
  | nil => rfl
  | cons c t ih =>
    have hc : c ≠ '\n' := fun e => h (by simp [e])
    have ht : '\n' ∉ t := fun h2 => h (by simp [h2])
    simp [dropToNextLine, hc, ih ht]

theorem dropToNextLine_append (l r : List Char) (h : '\n' ∉ l) :
    dropToNextLine (l ++ '\n' :: r) = some r := by
  induction l with
  | nil => simp [dropToNextLine]
  | cons c t ih =>
    have hc : c ≠ '\n' := fun e => h (by simp [e])
    have ht : '\n' ∉ t := fun h2 => h (by simp [h2])
    simp [dropToNextLine, hc, ih ht]

theorem joinLines_cons2 (l l2 : String) (rest : List String) :
    (joinLines (l :: l2 :: rest)).data
      = l.data ++ '\n' :: (joinLines (l2 :: rest)).data := by
  show (l ++ "\n" ++ joinLines (l2 :: rest)).data = _
  simp [String.data_append]

theorem searchAnchors_join (lines : List String) (fuel : Nat)
    (hnl : ∀ l ∈ lines, '\n' ∉ l.data) (hsp : ∀ l ∈ lines, ' ' ∈ l.data)
    (hfuel : (joinLines lines).data.length < fuel) :
    searchAnchors fuel (joinLines lines).data = lines.findSome? lineMatch := by
  induction lines generalizing fuel with
  | nil =>
    cases fuel with
    | zero => exact absurd hfuel (by simp)
    | succ f => rfl
  | cons l rest ih =>
    cases rest with
    | nil =>
      cases fuel with
      | zero => exact absurd hfuel (by simp)
      | succ f =>
        show searchAnchors (f + 1) l.data = _
        simp only [searchAnchors]
        cases hm : matchAt l.data with
        | some p => simp [List.findSome?_cons, lineMatch, hm]
        | none =>
          rw [dropToNextLine_none l.data (hnl l (by simp))]
          simp [List.findSome?_cons, lineMatch, hm]
    | cons l2 rest2 =>
      cases fuel with
      | zero => exact absurd hfuel (by simp)
      | succ f =>
        rw [joinLines_cons2 l l2 rest2]
        simp only [searchAnchors]
        rw [matchAt_line l.data (joinLines (l2 :: rest2)).data
          (hnl l (by simp)) (hsp l (by simp))]
        cases hm : matchAt l.data with
        | some p => simp [List.findSome?_cons, lineMatch, hm]
        | none =>
          rw [dropToNextLine_append l.data (joinLines (l2 :: rest2)).data
            (hnl l (by simp))]
          have hfuel2 : (joinLines (l2 :: rest2)).data.length < f := by
            rw [joinLines_cons2 l l2 rest2, List.length_append,
              List.length_cons] at hfuel
            omega
          have hih := ih f (fun x hx => hnl x (List.mem_cons_of_mem l hx))
            (fun x hx => hsp x (List.mem_cons_of_mem l hx)) hfuel2
          simpa [List.findSome?_cons, lineMatch, hm] using hih

theorem findSome?_first {α β : Type} (f : α → Option β) (pre : List α)
    (x : α) (post : List α) (b : β)
    (hpre : ∀ a ∈ pre, f a = none) (hx : f x = some b) :
    (pre ++ x :: post).findSome? f = some b := by
  induction pre with
  | nil => simp [List.findSome?_cons, hx]
  | cons a rest ih =>
    have ha : f a = none := hpre a (by simp)
    simp only [List.cons_append, List.findSome?_cons, ha]
    exact ih (fun y hy => hpre y (by simp [hy]))

/-- C4 counterexample: the multiline regex of `get_deck_pid` can match
across a line boundary, because the character class excluding only a space
also matches a newline.  On the process-table text
`"abc\n 123 0 <program>"` no single line matches the pattern, yet the
function returns pid 123; so "if no line matches, the function returns
None" is false as stated. -/
theorem get_deck_pid_crossline :
    lineMatch "abc" = none
    ∧ lineMatch " 123 0 node ./node_modules/webpack-dev-server/bin/webpack-dev-server.js"
        = none
    ∧ joinLines ["abc",
        " 123 0 node ./node_modules/webpack-dev-server/bin/webpack-dev-server.js"]
        = "abc\n 123 0 node ./node_modules/webpack-dev-server/bin/webpack-dev-server.js"
    ∧ get_deck_pid
        "abc\n 123 0 node ./node_modules/webpack-dev-server/bin/webpack-dev-server.js"
        = some 123 := by
  refine ⟨by decide, by decide, by decide, by decide⟩

/-- C4 (amended): provided every line of the process-table text contains at
least one space (true of real `ps` output; without it the multiline regex
can match across a newline), `get_deck_pid` returns exactly the first
per-line match: `None` when no line matches the expected command pattern,
and the pid captured from the second whitespace-delimited field of the
first matching line otherwise (in particular the sole match when exactly
one line matches). -/
theorem get_deck_pid_lines (lines : List String)
    (hnl : ∀ l ∈ lines, '\n' ∉ l.data) (hsp : ∀ l ∈ lines, ' ' ∈ l.data) :
    get_deck_pid (joinLines lines) = lines.findSome? lineMatch
    ∧ ((∀ l ∈ lines, lineMatch l = none) → get_deck_pid (joinLines lines) = none)
    ∧ (∀ pre l post p, lines = pre ++ l :: post →
        (∀ l2 ∈ pre, lineMatch l2 = none) → lineMatch l = some p →
        get_deck_pid (joinLines lines) = some p) := by
  have hmain : get_deck_pid (joinLines lines) = lines.findSome? lineMatch := by
    unfold get_deck_pid
    exact searchAnchors_join lines ((joinLines lines).length + 1) hnl hsp
      (Nat.lt_succ_self _)
  refine ⟨hmain, ?_, ?_⟩
  · intro hall
    rw [hmain]
    exact List.findSome?_eq_none_iff.mpr hall
  · intro pre l post p hsplit hpre hl
    rw [hmain, hsplit]
    exact findSome?_first lineMatch pre l post p hpre hl

/-- Witness for `get_deck_pid_lines`: a header line plus one dev-server
line; discovery returns the pid of the matching line. -/
theorem get_deck_pid_lines_witness :
    ((∀ l ∈ [("UID PID CMD" : String), psFortyTwo], '\n' ∉ l.data)
     ∧ (∀ l ∈ [("UID PID CMD" : String), psFortyTwo], ' ' ∈ l.data))
    ∧ get_deck_pid (joinLines [("UID PID CMD" : String), psFortyTwo])
        = [("UID PID CMD" : String), psFortyTwo].findSome? lineMatch :=
  ⟨⟨by decide, by decide⟩,
   (get_deck_pid_lines [("UID PID CMD" : String), psFortyTwo]
      (by decide) (by decide)).1⟩

theorem getElem?_mem_of {α : Type} {l : List α} {i : Nat} {a : α}
    (h : l[i]? = some a) : a ∈ l := by
  rcases List.getElem?_eq_some_iff.mp h with ⟨hl, rfl⟩
  exact l.getElem_mem hl

theorem getElem?_lt_of {α : Type} {l : List α} {i : Nat} {a : α}
    (h : l[i]? = some a) : i < l.length :=
  (List.getElem?_eq_some_iff.mp h).1

theorem eventBefore_of_no_q (P Q : Event → Prop) (tr : List Event)
    (h : ∀ e ∈ tr, ¬ Q e) : eventBefore P Q tr :=
  fun _ _ _ e₂ _ _ hj hQ => absurd hQ (h e₂ (getElem?_mem_of hj))

theorem eventBefore_append (P Q : Event → Prop) (a b : List Event)
    (ha : ∀ e ∈ a, ¬ Q e) (hb : ∀ e ∈ b, ¬ P e) :
    eventBefore P Q (a ++ b) := by
  intro i j e₁ e₂ hi hP hj hQ
  by_cases hia : i < a.length
  · by_cases hja : j < a.length
    · rw [List.getElem?_append_left hja] at hj
      exact absurd hQ (ha e₂ (getElem?_mem_of hj))
    · omega
  · push_neg at hia
    rw [List.getElem?_append_right hia] at hi
    exact absurd hP (hb e₁ (getElem?_mem_of hi))

theorem eventCovered_of_no_q (R Q : Event → Prop) (tr : List Event)
    (h : ∀ e ∈ tr, ¬ Q e) : eventCovered R Q tr :=
  fun _ e hj hQ => absurd hQ (h e (getElem?_mem_of hj))

theorem eventCovered_append_left (R Q : Event → Prop) (a b : List Event)
    (hc : eventCovered R Q a) (hw : ∃ e ∈ a, R e) :
    eventCovered R Q (a ++ b) := by
  intro j e hj hQ
  by_cases hja : j < a.length
  · rw [List.getElem?_append_left hja] at hj
    rcases hc j e hj hQ with ⟨i, e₂, hij, hi, hR⟩
    have hia : i < a.length := lt_trans hij hja
    exact ⟨i, e₂, hij, by rw [List.getElem?_append_left hia]; exact hi, hR⟩
  · push_neg at hja
    rcases hw with ⟨e₂, he₂, hR⟩
    rcases List.getElem?_of_mem he₂ with ⟨i, hi⟩
    have hia : i < a.length := getElem?_lt_of hi
    exact ⟨i, e₂, by omega, by rw [List.getElem?_append_left hia]; exact hi, hR⟩

theorem eventCovered_append_right (R Q : Event → Prop) (a b : List Event)
    (ha : ∀ e ∈ a, ¬ Q e) (hb : eventCovered R Q b) :
    eventCovered R Q (a ++ b) := by
  intro j e hj hQ
  by_cases hja : j < a.length
  · rw [List.getElem?_append_left hja] at hj
    exact absurd hQ (ha e (getElem?_mem_of hj))
  · push_neg at hja
    rw [List.getElem?_append_right hja] at hj
    rcases hb (j - a.length) e hj hQ with ⟨i, e₂, hij, hi, hR⟩
    refine ⟨a.length + i, e₂, by omega, ?_, hR⟩
    rw [List.getElem?_append_right (by omega)]
    simpa using hi

theorem tailEvents_cons (logDir : String) (s : String) (ns : List String) :
    tailEvents logDir (s :: ns)
      = Event.createLog (errLogPath logDir s)
        :: Event.startTail (errLogPath logDir s) :: tailEvents logDir ns := by
  simp [tailEvents, List.flatMap_cons]

theorem tailEvents_covered (logDir : String) (names : List String) (p : String) :
    eventCovered (fun e => e = Event.createLog p)
      (fun e => e = Event.startTail p) (tailEvents logDir names) := by
  induction names with
  | nil => intro j e hj hQ; simp [tailEvents] at hj
  | cons s ns ih =>
    intro j e hj hQ
    rw [tailEvents_cons] at hj
    rcases j with _ | j
    · rw [List.getElem?_cons_zero] at hj
      obtain rfl := Option.some.inj hj
      simp at hQ
    · rcases j with _ | j
      · rw [List.getElem?_cons_succ, List.getElem?_cons_zero] at hj
        obtain rfl := Option.some.inj hj
        have hp : errLogPath logDir s = p := by
          simpa using hQ
        refine ⟨0, Event.createLog (errLogPath logDir s), by omega, ?_, by rw [hp]⟩
        rw [tailEvents_cons, List.getElem?_cons_zero]
      · rw [List.getElem?_cons_succ, List.getElem?_cons_succ] at hj
        rcases ih j e hj hQ with ⟨i, e₂, hij, hi, hR⟩
        refine ⟨i + 2, e₂, by omega, ?_, hR⟩
        rw [tailEvents_cons, List.getElem?_cons_succ, List.getElem?_cons_succ]
        exact hi

theorem tailLoop_events (logDir : String) (names : List String) :
    ∀ fs : FS, (tailLoop logDir fs names).2 = tailEvents logDir names := by
  induction names with
  | nil => intro fs; simp [tailLoop, tailEvents]
  | cons s ns ih => intro fs; simp [tailLoop, tailEvents_cons, ih]

theorem createLog_mem_tailEvents (logDir : String) {names : List String}
    {s : String} (h : s ∈ names) :
    Event.createLog (errLogPath logDir s) ∈ tailEvents logDir names := by
  simp only [tailEvents, List.mem_flatMap]
  exact ⟨s, h, by simp⟩

theorem mem_tailEvents {logDir : String} {names : List String} {e : Event}
    (h : e ∈ tailEvents logDir names) :
    (∃ q, e = Event.createLog q) ∨ (∃ q, e = Event.startTail q) := by
  simp only [tailEvents, List.mem_flatMap] at h
  rcases h with ⟨s, _, hs⟩
  rcases List.mem_cons.mp hs with rfl | hs2
  · exact Or.inl ⟨_, rfl⟩
  · rcases List.mem_cons.mp hs2 with rfl | hs3
    · exact Or.inr ⟨_, rfl⟩
    · cases hs3

theorem mem_seed_events {cfgDir tmplDir : String} {fs : FS} {e : Event}
    (h : e ∈ (seedDefaultIfMissing cfgDir tmplDir fs).events) :
    (∃ s d, e = Event.copyFile s d) ∨ (∃ q m, e = Event.chmod q m)
    ∨ e = Event.warnDefault := by
  by_cases hm : (fs (masterConfigPath cfgDir)).isSome
  · rw [seed_skip cfgDir tmplDir fs hm] at h
    cases h
  · have habs : fs (masterConfigPath cfgDir) = none :=
      Option.not_isSome_iff_eq_none.mp hm
    cases ht : fs (templateConfigPath tmplDir) with
    | none => simp [seedDefaultIfMissing, habs, ht] at h
    | some t =>
      rw [seed_scratch cfgDir tmplDir fs t habs ht] at h
      simp at h
      rcases h with rfl | rfl | rfl
      · exact Or.inl ⟨_, _, rfl⟩
      · exact Or.inr (Or.inl ⟨_, _, rfl⟩)
      · exact Or.inr (Or.inr rfl)

theorem mem_reconfigure_events {cfgDir tmplDir : String} {mk : MakedirsResult}
    {v : Bool} {render : FS → FS} {fs : FS} {e : Event}
    (h : e ∈ (reconfigure_subsystems cfgDir tmplDir mk v render fs).events) :
    (∃ q r, e = Event.mkdir q r) ∨ (∃ s d, e = Event.copyFile s d)
    ∨ (∃ q m, e = Event.chmod q m) ∨ e = Event.warnDefault
    ∨ (∃ b, e = Event.validate b) ∨ e = Event.render := by
  rw [reconfigure_events] at h
  rcases List.mem_cons.mp h with rfl | h2
  · exact Or.inl ⟨_, _, rfl⟩
  · rcases List.mem_append.mp h2 with h3 | h3
    · rcases mem_seed_events h3 with h4 | h4 | h4
      · exact Or.inr (Or.inl h4)
      · exact Or.inr (Or.inr (Or.inl h4))
      · exact Or.inr (Or.inr (Or.inr (Or.inl h4)))
    · by_cases hok : (seedDefaultIfMissing cfgDir tmplDir fs).ok = true
      · by_cases hv : v = true
        · simp only [hok, hv, if_true] at h3
          rcases List.mem_cons.mp h3 with rfl | h4
          · exact Or.inr (Or.inr (Or.inr (Or.inr (Or.inl ⟨_, rfl⟩))))
          · rcases List.mem_cons.mp h4 with rfl | h5
            · exact Or.inr (Or.inr (Or.inr (Or.inr (Or.inr rfl))))
            · cases h5
        · simp only [hok, hv, if_true, if_false] at h3
          rcases List.mem_cons.mp h3 with rfl | h4
          · exact Or.inr (Or.inr (Or.inr (Or.inr (Or.inl ⟨_, rfl⟩))))
          · cases h4
      · simp only [hok, if_false] at h3
        cases h3

theorem mem_waitForDeckLog {k : Nat} {e : Event} (h : e ∈ waitForDeckLog k) :
    (∃ b, e = Event.checkLog b) ∨ e = Event.sleepEv := by
  induction k with
  | zero =>
    simp [waitForDeckLog] at h
    subst h
    exact Or.inl ⟨true, rfl⟩
  | succ n ih =>
    simp only [waitForDeckLog] at h
    rcases List.mem_cons.mp h with rfl | h2
    · exact Or.inl ⟨false, rfl⟩
    · rcases List.mem_cons.mp h2 with rfl | h3
      · exact Or.inr rfl
      · exact ih h3

theorem checkTrue_mem_waitForDeckLog (k : Nat) :
    Event.checkLog true ∈ waitForDeckLog k := by
  induction k with
  | zero => simp [waitForDeckLog]
  | succ n ih => simp [waitForDeckLog, ih]

theorem mem_pollDeckLoop {resps : List (Option Nat)} {tr : List Event}
    {e : Event} (h : pollDeckLoop resps = some tr) (he : e ∈ tr) :
    (∃ r, e = Event.fetch r) ∨ e = Event.sleepEv := by
  induction resps generalizing tr with
  | nil => simp [pollDeckLoop] at h
  | cons r rest ih =>
    unfold pollDeckLoop at h
    by_cases hr : r = some 200
    · rw [if_pos hr] at h
      obtain rfl := Option.some.inj h
      rcases List.mem_cons.mp he with rfl | h2
      · exact Or.inl ⟨r, rfl⟩
      · cases h2
    · rw [if_neg hr] at h
      cases hp : pollDeckLoop rest with
      | none => rw [hp] at h; simp at h
      | some tr2 =>
        rw [hp] at h
        simp only [Option.map_some'] at h
        obtain rfl := Option.some.inj h
        rcases List.mem_cons.mp he with rfl | h2
        · exact Or.inl ⟨r, rfl⟩
        · rcases List.mem_cons.mp h2 with rfl | h3
          · exact Or.inr rfl
          · exact ih hp h3

theorem mem_superStartAll {names : List String} {e : Event}
    (h : e ∈ superStartAllEvents names) : ∃ s, e = Event.spawn s := by
  simp only [superStartAllEvents, List.mem_map] at h
  rcases h with ⟨s, _, rfl⟩
  exact ⟨s, rfl⟩

theorem reconfigure_benign {cfgDir tmplDir : String} {mk : MakedirsResult}
    {v : Bool} {render : FS → FS} {fs : FS} {e : Event}
    (h : e ∈ (reconfigure_subsystems cfgDir tmplDir mk v render fs).events) :
    ¬ isSpawnEvent e ∧ (∀ q, e ≠ Event.startTail q) ∧ ¬ isFetchEvent e := by
  rcases mem_reconfigure_events h with
    ⟨q, r, rfl⟩ | ⟨s, d, rfl⟩ | ⟨q, m, rfl⟩ | rfl | ⟨b, rfl⟩ | rfl <;>
    simp [isSpawnEvent, isFetchEvent]
theorem start_all_shape (usingDeprecated : Bool) (cfgDir tmplDir logDir : String)
    (mk1 mk2 : MakedirsResult) (v : Bool) (render : FS → FS)
    (names : List String) (k : Nat) (resps : List (Option Nat)) (fs : FS)
    (tr : List Event)
    (h : start_all usingDeprecated cfgDir tmplDir logDir mk1 mk2 v render
        names k resps fs = some tr) :
    (∃ evP, pollDeckLoop resps = some evP ∧
      tr = (if usingDeprecated then
              reconfigure_subsystems cfgDir tmplDir mk1 v render fs
            else RunOutcome.mk fs [] true).events
        ++ ((Event.mkdir logDir mk2 :: tailEvents logDir names)
        ++ (superStartAllEvents names
        ++ (waitForDeckLog k
        ++ (Event.startTail (deckLogPath logDir) :: evP ++ [Event.printReady])))))
    ∨ (usingDeprecated = true
       ∧ tr = (reconfigure_subsystems cfgDir tmplDir mk1 v render fs).events
       ∧ (reconfigure_subsystems cfgDir tmplDir mk1 v render fs).ok = false) := by
  unfold start_all at h
  set c : RunOutcome :=
    if usingDeprecated then reconfigure_subsystems cfgDir tmplDir mk1 v render fs
    else RunOutcome.mk fs [] true with hcdef
  by_cases hok : c.ok = true
  · rw [if_pos hok] at h
    cases hp : pollDeckLoop resps with
    | none => rw [hp] at h; cases h
    | some evP =>
      rw [hp] at h
      obtain rfl := Option.some.inj h
      refine Or.inl ⟨evP, rfl, ?_⟩
      simp only [tail_error_logs, tailLoop_events, List.append_assoc,
        List.cons_append]
  · rw [if_neg hok] at h
    obtain rfl := Option.some.inj h
    cases hd : usingDeprecated with
    | false =>
      exfalso
      apply hok
      rw [hcdef, hd]
      rfl
    | true =>
      refine Or.inr ⟨rfl, ?_, ?_⟩
      · rw [hcdef, hd]
        simp
      · have : c = reconfigure_subsystems cfgDir tmplDir mk1 v render fs := by
          rw [hcdef, hd]; simp
        rw [← this]
        exact Bool.not_eq_true c.ok ▸ (by simpa using hok)

/-- C6: ordering of the start sequence.  In every run of `start_all` that
returns a trace: every configuration validation/rendering event precedes
every daemon-spawn event; for every subsystem, any tail attachment to its
error log is preceded by the creation of that log (by `tail_error_logs`);
and every HTTP readiness fetch is preceded by a successful existence check
of the front-end's log file. -/
theorem start_all_event_ordering (usingDeprecated : Bool)
    (cfgDir tmplDir logDir : String) (mk1 mk2 : MakedirsResult) (v : Bool)
    (render : FS → FS) (names : List String) (k : Nat)
    (resps : List (Option Nat)) (fs : FS) (tr : List Event)
    (h : start_all usingDeprecated cfgDir tmplDir logDir mk1 mk2 v render
        names k resps fs = some tr) :
    eventBefore isConfigEvent isSpawnEvent tr
    ∧ (∀ s ∈ names,
        eventCovered (fun e => e = Event.createLog (errLogPath logDir s))
          (fun e => e = Event.startTail (errLogPath logDir s)) tr)
    ∧ eventCovered (fun e => e = Event.checkLog true) isFetchEvent tr := by
  rcases start_all_shape usingDeprecated cfgDir tmplDir logDir mk1 mk2 v render
      names k resps fs tr h with ⟨evP, hp, rfl⟩ | ⟨hd, rfl, hok⟩
  · have hC : ∀ e ∈ (if usingDeprecated then
          reconfigure_subsystems cfgDir tmplDir mk1 v render fs
        else RunOutcome.mk fs [] true).events,
        ¬ isSpawnEvent e ∧ (∀ q, e ≠ Event.startTail q) ∧ ¬ isFetchEvent e := by
      intro e he
      by_cases hd : usingDeprecated = true
      · rw [if_pos hd] at he
        exact reconfigure_benign he
      · rw [if_neg hd] at he
        cases he
    have hT : ∀ e ∈ Event.mkdir logDir mk2 :: tailEvents logDir names,
        ¬ isConfigEvent e ∧ ¬ isFetchEvent e := by
      intro e he
      rcases List.mem_cons.mp he with rfl | h2
      · simp [isConfigEvent, isFetchEvent]
      · rcases mem_tailEvents h2 with ⟨q, rfl⟩ | ⟨q, rfl⟩ <;>
          simp [isConfigEvent, isFetchEvent]
    have hS : ∀ e ∈ superStartAllEvents names,
        ¬ isConfigEvent e ∧ (∀ q, e ≠ Event.startTail q) ∧ ¬ isFetchEvent e := by
      intro e he
      rcases mem_superStartAll he with ⟨s, rfl⟩
      simp [isConfigEvent, isFetchEvent]
    have hW : ∀ e ∈ waitForDeckLog k,
        ¬ isConfigEvent e ∧ (∀ q, e ≠ Event.startTail q) ∧ ¬ isFetchEvent e := by
      intro e he
      rcases mem_waitForDeckLog he with ⟨b, rfl⟩ | rfl <;>
        simp [isConfigEvent, isFetchEvent]
    have hX : ∀ e ∈ Event.startTail (deckLogPath logDir) :: evP
          ++ [Event.printReady], ¬ isConfigEvent e ∧ ¬ isSpawnEvent e := by
      intro e he
      rcases List.mem_cons.mp he with rfl | h2
      · simp [isConfigEvent, isSpawnEvent]
      · rcases List.mem_append.mp h2 with h3 | h3
        · rcases mem_pollDeckLoop hp h3 with ⟨r, rfl⟩ | rfl <;>
            simp [isConfigEvent, isSpawnEvent]
        · simp only [List.mem_singleton] at h3
          subst h3
          simp [isConfigEvent, isSpawnEvent]
    refine ⟨?_, ?_, ?_⟩
    · apply eventBefore_append
      · exact fun e he => (hC e he).1
      · intro e he
        rcases List.mem_append.mp he with h1 | h2
        · exact (hT e h1).1
        · rcases List.mem_append.mp h2 with h3 | h4
          · exact (hS e h3).1
          · rcases List.mem_append.mp h4 with h5 | h6
            · exact (hW e h5).1
            · exact (hX e h6).1
    · intro s hs
      apply eventCovered_append_right
      · exact fun e he => (hC e he).2.1 (errLogPath logDir s)
      · apply eventCovered_append_left
        · rw [show Event.mkdir logDir mk2 :: tailEvents logDir names
              = [Event.mkdir logDir mk2] ++ tailEvents logDir names by simp]
          apply eventCovered_append_right
          · intro e he
            simp only [List.mem_singleton] at he
            subst he
            simp
          · exact tailEvents_covered logDir names (errLogPath logDir s)
        · exact ⟨Event.createLog (errLogPath logDir s),
            List.mem_cons_of_mem _ (createLog_mem_tailEvents logDir hs), rfl⟩
    · apply eventCovered_append_right
      · exact fun e he => (hC e he).2.2
      · apply eventCovered_append_right
        · exact fun e he => (hT e he).2
        · apply eventCovered_append_right
          · exact fun e he => (hS e he).2.2
          · apply eventCovered_append_left
            · exact eventCovered_of_no_q _ _ _ (fun e he => (hW e he).2.2)
            · exact ⟨Event.checkLog true, checkTrue_mem_waitForDeckLog k, rfl⟩
  · refine ⟨?_, ?_, ?_⟩
    · exact eventBefore_of_no_q _ _ _
        (fun e he => (reconfigure_benign he).1)
    · intro s hs
      exact eventCovered_of_no_q _ _ _
        (fun e he => (reconfigure_benign he).2.1 (errLogPath logDir s))
    · exact eventCovered_of_no_q _ _ _
        (fun e he => (reconfigure_benign he).2.2)

/-- Witness for `start_all_event_ordering`: a full run with one subsystem,
one failed deck-log existence check, and an immediately ready front-end. -/
theorem start_all_event_ordering_witness :
    start_all false "/c" "/t" "/L" MakedirsResult.ok MakedirsResult.ok true id
        ["api"] 1 [some 200] (fun _ => none) = some exTrace
    ∧ (eventBefore isConfigEvent isSpawnEvent exTrace
       ∧ (∀ s ∈ ["api"],
           eventCovered (fun e => e = Event.createLog (errLogPath "/L" s))
             (fun e => e = Event.startTail (errLogPath "/L" s)) exTrace)
       ∧ eventCovered (fun e => e = Event.checkLog true) isFetchEvent exTrace) :=
  ⟨by decide,
   start_all_event_ordering false "/c" "/t" "/L" MakedirsResult.ok
     MakedirsResult.ok true id ["api"] 1 [some 200] (fun _ => none) exTrace
     (by decide)⟩

end DevRunner
